import Mathlib

/-!
Verification of `create_dep_graph.py`, a task-dependency tracking tool.

The development shallowly embeds the program: the Python string operations
used by the parser are modelled character-by-character on `List Char`
(ASCII semantics, which covers every input considered here), parsing and
graph construction become pure Lean functions, Python exceptions
(`AssertionError`, `ValueError`, `IndexError`, `NetworkXError`) become an
explicit `Except` error type, and the two in-place attribute-mutation loops
of `set_node_info` become explicit list passes.
-/

deriving instance DecidableEq for Except

namespace DepGraph

/-- ASCII lower-casing of a character; models Python `str.lower` on the
ASCII inputs used throughout. -/
def chLower (c : Char) : Char :=
  if 'A' ≤ c ∧ c ≤ 'Z' then Char.ofNat (c.toNat + 32) else c

/-- Models Python `str.lower` (ASCII). -/
def py_lower (s : String) : String := String.mk (s.data.map chLower)

/-- Whitespace characters recognised by Python `str.strip` / `str.split`
(ASCII subset). -/
def isSpace (c : Char) : Bool :=
  c = ' ' || c = '\t' || c = '\n' || c = '\r' || c = '\x0b' || c = '\x0c'

/-- Strip leading and trailing whitespace from a character list. -/
def trimList (l : List Char) : List Char :=
  ((l.dropWhile isSpace).reverse.dropWhile isSpace).reverse

/-- Models Python `str.strip()`. -/
def py_strip (s : String) : String := String.mk (trimList s.data)

/-- Predicate `startsWithL pat s`: true iff `pat` is an initial segment of `s`. -/
def startsWithL : List Char → List Char → Bool
  | [], _ => true
  | _ :: _, [] => false
  | p :: ps, c :: cs => p = c && startsWithL ps cs

/-- Models Python `str.startswith`. -/
def py_startswith (s pat : String) : Bool := startsWithL pat.data s.data

/-- Models Python `str.endswith`. -/
def py_endswith (s pat : String) : Bool :=
  startsWithL pat.data.reverse s.data.reverse

/-- Predicate `containsL s pat`: does `pat` occur as a contiguous substring of `s`? -/
def containsL : List Char → List Char → Bool
  | [], pat => pat.isEmpty
  | c :: rest, pat => startsWithL pat (c :: rest) || containsL rest pat

/-- Models Python `pat in s` (substring test). -/
def py_in (pat s : String) : Bool := containsL s.data pat.data

/-- Worker for `py_split_str`: fuel-driven scan emitting segments between
non-overlapping occurrences of `sep` (fuel is generous; with fuel at least
the remaining length the fallback branch is unreachable). -/
def splitOnGo (sep : List Char) : Nat → List Char → List Char → List (List Char)
  | _, [], acc => [acc.reverse]
  | 0, s, acc => [acc.reverse ++ s]
  | fuel + 1, c :: rest, acc =>
    if startsWithL sep (c :: rest) then
      acc.reverse :: splitOnGo sep fuel ((c :: rest).drop sep.length) []
    else
      splitOnGo sep fuel rest (c :: acc)

/-- Models Python `s.split(sep)` for a non-empty separator. -/
def py_split_str (s sep : String) : List String :=
  if sep.data.isEmpty then [s]
  else (splitOnGo sep.data (s.data.length + 1) s.data []).map String.mk

/-- Worker for `py_replace` (fuel-driven, like `splitOnGo`). -/
def replaceGo (old new : List Char) : Nat → List Char → List Char
  | _, [] => []
  | 0, s => s
  | fuel + 1, c :: rest =>
    if startsWithL old (c :: rest) then
      new ++ replaceGo old new fuel ((c :: rest).drop old.length)
    else
      c :: replaceGo old new fuel rest

/-- Models Python `s.replace(old, new)` for a non-empty `old`. -/
def py_replace (s old new : String) : String :=
  if old.data.isEmpty then s
  else String.mk (replaceGo old.data new.data (s.data.length + 1) s.data)

/-- Split on whitespace runs, discarding empty segments; models Python
`str.split()` with no argument (used by `textwrap`). -/
def splitWsGo : List Char → List Char → List (List Char)
  | [], acc => if acc.isEmpty then [] else [acc.reverse]
  | c :: rest, acc =>
    if isSpace c then
      if acc.isEmpty then splitWsGo rest [] else acc.reverse :: splitWsGo rest []
    else
      splitWsGo rest (c :: acc)

/-- Models Python `sep.join(parts)`. -/
def joinSep (sep : String) : List String → String
  | [] => ""
  | [x] => x
  | x :: y :: rest => x ++ sep ++ joinSep sep (y :: rest)

/-- Python runtime failures surfaced by the script: the `assert` in
`extract_node_info` (duplicate node), the tuple-unpacking `ValueError` in
`graph_from_deps`, the out-of-range list index in `read_comment`, and the
`NetworkXError` raised by `G.successors` on a missing node. -/
inductive PyErr where
  | duplicateNode (name : String)
  | valueError
  | indexError
  | networkxError
deriving DecidableEq

/-- Declared metadata for one node, as stored by `extract_node_info`:
`node_info[node_name] = dict(name=..., complete=..., comment=...)`. -/
structure NodeInfo where
  name : String
  complete : Bool
  comment : String
deriving DecidableEq

/-- A graph node with its networkx attribute dictionary. In the Python
code the `next` and `waiting` keys only appear once `set_node_info` has
run; they are carried here from the start (initially `false`) and are
never read before `set_node_info` writes them. -/
structure GNode where
  name : String
  complete : Bool
  comment : String
  next : Bool
  waiting : Bool
deriving DecidableEq

/-- The `nx.DiGraph`: nodes in insertion order (networkx iterates nodes in
insertion order), edges in insertion order, no duplicate nodes or edges
(networkx collapses re-insertions). -/
structure DiGraph where
  nodes : List GNode
  edges : List (String × String)
deriving DecidableEq

/-- Models `re.sub` anchored at the start for a literal pattern: drop one leading
occurrence of `pat` if present. -/
def subLeading (pat : String) (s : String) : String :=
  if py_startswith s pat then String.mk (s.data.drop pat.data.length) else s

/-- Source `is_edge_line`: starts with `-` and contains `->`. -/
def is_edge_line (line : String) : Bool :=
  py_startswith line "-" && py_in "->" line

/-- Source `is_node_line`: starts with `-`, is not an edge line,
and is non-empty once all `-` characters are removed and it is stripped. -/
def is_node_line (line : String) : Bool :=
  py_startswith line "-" && !is_edge_line line
    && !(py_strip (py_replace line "-" "") == "")

/-- Source `is_comment_start_line`. -/
def is_comment_start_line (line : String) : Bool :=
  py_startswith (py_strip line) "\""

/-- Source `is_comment_end_line` (declared there but unused by
the parser loop, which tests the last wrapped segment instead). -/
def is_comment_end_line (line : String) : Bool :=
  py_endswith (py_strip line) "\""

/-- Source `get_node_name`: strip one leading `-`, strip, strip
one leading `[complete]` tag, strip. -/
def get_node_name (line : String) : String :=
  py_strip (subLeading "[complete]" (py_strip (subLeading "-" line)))

/-- Source `is_complete_line`: substring search for `[complete]`
on the (re-)lower-cased line. -/
def is_complete_line (line : String) : Bool :=
  py_in "[complete]" (py_lower line)

/-- Greedy line filler modelling `textwrap.wrap`: words are packed into
lines of at most `width` characters; a word longer than `width` is broken
at `width`. Fuel-driven (the fuel passed by `wrap` always suffices).
Python's hyphen-aware breaking of long words and its preservation of
intra-line whitespace runs are not modelled; no input considered here has
a word longer than the width or repeated internal whitespace. -/
def wrapGo (width : Nat) : Nat → List String → String → List String
  | 0, _, cur => if cur == "" then [] else [cur]
  | _ + 1, [], cur => if cur == "" then [] else [cur]
  | fuel + 1, w :: ws, cur =>
    if cur == "" then
      if w.data.length ≤ width then wrapGo width fuel ws w
      else String.mk (w.data.take width) :: wrapGo width fuel (String.mk (w.data.drop width) :: ws) ""
    else if cur.data.length + 1 + w.data.length ≤ width then
      wrapGo width fuel ws (cur ++ " " ++ w)
    else
      cur :: wrapGo width fuel (w :: ws) ""

/-- Models `textwrap.wrap(text, width)` (see `wrapGo` for the scope of the
model): whitespace-split words greedily packed; returns `[]` on
whitespace-only text, as Python does. -/
def wrap (text : String) (width : Nat) : List String :=
  let ws := (splitWsGo text.data []).map String.mk
  wrapGo width (text.data.length + 2 * ws.length + 2) ws ""

/-- The `"\l"` dot-notation line break used by `read_comment`. -/
def dotNewline : String := "\\l"

/-- The final expression of `read_comment`:
`newline.join(comment_lines).replace('"', '') + newline`. -/
def mk_comment (comment_lines : List String) : String :=
  py_replace (joinSep dotNewline comment_lines) "\"" "" ++ dotNewline

/-- The loop of `read_comment`, recast from an index `i` into `lines` to
the suffix of `lines` starting at `i`. Each step appends
`wrap(lines[i].strip(), 30)` to the accumulated `comment_lines` and stops
when the last accumulated segment ends with a quote, returning the comment
and the suffix starting at the terminating line (Python returns that
line's index `i`, which the caller resumes from). Running off the end of
`lines`, or indexing `comment_lines[-1]` while empty, is Python's
unguarded `IndexError`, surfaced as `.error .indexError`. -/
def read_comment_go : List String → List String → Except PyErr (String × List String)
  | [], _ => .error .indexError
  | l :: rest, comment_lines =>
    let comment_lines := comment_lines ++ wrap (py_strip l) 30
    match comment_lines.getLast? with
    | none => .error .indexError
    | some last =>
      if py_endswith last "\"" then .ok (mk_comment comment_lines, l :: rest)
      else read_comment_go rest comment_lines

/-- Source `read_comment(i, lines)`, started at the beginning of the given suffix,
with an empty accumulator. -/
def read_comment (lines : List String) : Except PyErr (String × List String) :=
  read_comment_go lines []

/-- The `while i < len(lines)` loop of `extract_node_info`, recast to the
suffix of `lines` at the cursor. On a node line: a name already in
`node_info` trips the `assert` (an `AssertionError` aborting the run); a
following comment-start line hands control to `read_comment`, and the loop
resumes at the suffix it returns (Python resumes at the returned index,
i.e. re-examines the comment-terminating line). Fuel-driven because the
comment case resumes at a non-structural suffix; every recursion shortens
the suffix by at least one line, so the fuel `extract_node_info` supplies
is never exhausted (the fuel-out branch returns `.error .indexError`,
unreachable from `extract_node_info`). -/
def extract_go : Nat → List String → List (String × NodeInfo) →
    Except PyErr (List (String × NodeInfo))
  | _, [], node_info => .ok node_info
  | 0, _ :: _, _ => .error .indexError
  | fuel + 1, line :: rest, node_info =>
    if is_node_line line then
      let node_name := get_node_name line
      if (node_info.lookup node_name).isSome then
        .error (.duplicateNode node_name)
      else
        let complete := is_complete_line line
        match rest with
        | [] => extract_go fuel [] (node_info ++ [(node_name, ⟨node_name, complete, ""⟩)])
        | next_line :: _ =>
          if is_comment_start_line next_line then
            match read_comment_go rest [] with
            | .error e => .error e
            | .ok (comment, rest2) =>
              extract_go fuel rest2 (node_info ++ [(node_name, ⟨node_name, complete, comment⟩)])
          else
            extract_go fuel rest (node_info ++ [(node_name, ⟨node_name, complete, ""⟩)])
    else
      extract_go fuel rest node_info

/-- Source `extract_node_info(lines)`: the node-metadata map, as an
insertion-ordered association list with (by the duplicate check) distinct
keys. -/
def extract_node_info (lines : List String) : Except PyErr (List (String × NodeInfo)) :=
  extract_go (lines.length + 1) lines []

/-- Source `read_deps`: lower-case every line, extract node metadata, keep lines
starting with `-`, drop the leading `-` and strip, and keep as dependency
expressions those containing `->`. The file contents are modelled as the
list of its lines (Python's `readlines` keeps the trailing newline, which
every downstream use either strips or is insensitive to). -/
def read_deps (lines : List String) : Except PyErr (List String × List (String × NodeInfo)) :=
  let lines := lines.map py_lower
  match extract_node_info lines with
  | .error e => .error e
  | .ok node_info =>
    let lines := lines.filter (fun l => py_startswith l "-")
    let lines := lines.map (fun l => py_strip (subLeading "-" l))
    let deps_lines := lines.filter (fun l => py_in "->" l)
    .ok (deps_lines, node_info)

/-- Models `G.add_nodes_from([name], complete=False)` for one name: a new node is
appended with `complete=False`; an existing node has its `complete`
attribute overwritten with `False` (networkx updates attributes of
existing nodes). -/
def add_node_complete_false (g : DiGraph) (name : String) : DiGraph :=
  if g.nodes.any (fun n => n.name == name) then
    { g with nodes := g.nodes.map (fun n => if n.name == name then { n with complete := false } else n) }
  else
    { g with nodes := g.nodes ++ [⟨name, false, "", false, false⟩] }

/-- Models `G.add_edge(parent, child)`: duplicate edges collapse. -/
def add_edge (g : DiGraph) (parent child : String) : DiGraph :=
  if g.edges.contains (parent, child) then g
  else { g with edges := g.edges ++ [(parent, child)] }

/-- Source `graph_from_deps`: for each expression, `parent, child = dep.split("->")`
— tuple unpacking raises `ValueError` unless the split has exactly two
parts (there is no try/except here, unlike `print_dep`) — then strip both,
insert both nodes with `complete=False` and insert the edge. -/
def graph_from_deps (deps : List String) : Except PyErr DiGraph :=
  deps.foldlM (fun g dep =>
    match py_split_str dep "->" with
    | [parent, child] =>
      let parent := py_strip parent
      let child := py_strip child
      .ok (add_edge (add_node_complete_false (add_node_complete_false g parent) child) parent child)
    | _ => .error .valueError) ⟨[], []⟩

/-- Models `node_name in node_info.keys()` and the `node_info[node]` lookup. -/
def lookupInfo (node_info : List (String × NodeInfo)) (name : String) : Option NodeInfo :=
  node_info.lookup name

/-- One step of the first (`overlay`) loop of `set_node_info`: set the
node's `complete` and `comment` from the declared metadata, defaulting to
`False` / `""`. -/
def overlayNode (node_info : List (String × NodeInfo)) (n : GNode) : GNode :=
  match lookupInfo node_info n.name with
  | some i => { n with complete := i.complete, comment := i.comment }
  | none => { n with complete := false, comment := "" }

/-- Models `G.predecessors(node)`: sources of the edges into `node`. -/
def predecessors (edges : List (String × String)) (name : String) : List String :=
  (edges.filter (fun e => e.2 == name)).map (fun e => e.1)

/-- Find a node by name (`G.nodes[name]`; names are unique in graphs the
builder produces, so first match suffices). -/
def getNode (nodes : List GNode) (name : String) : Option GNode :=
  nodes.find? (fun n => n.name == name)

/-- Models `G.nodes[name]["complete"]` (default `false` is never used on builder
graphs, whose edges only join existing nodes). -/
def nodeComplete (nodes : List GNode) (name : String) : Bool :=
  ((getNode nodes name).map (fun n => n.complete)).getD false

/-- One step of the second (`derivation`) loop of `set_node_info`.
CRUCIAL FIDELITY POINT: the Python body reads the local variable
`complete`, which is never assigned in this loop — it still holds the
value assigned in the LAST iteration of the overlay loop, i.e. the
overlaid `complete` of the final node in iteration order. That stale value
is the `lastComplete` parameter here; the node's own completion flag is
NOT consulted, exactly as in the source (`is_next = (not complete) and
all_parents_complete` at line 194). -/
def deriveNode (edges : List (String × String)) (overlaid : List GNode)
    (lastComplete : Bool) (n : GNode) : GNode :=
  let all_parents_complete :=
    (predecessors edges n.name).all (fun parent => nodeComplete overlaid parent)
  let is_next := !lastComplete && all_parents_complete
  let is_waiting := is_next && py_startswith n.name "await"
  { n with waiting := is_waiting, next := is_next }

/-- Source `set_node_info(node_info, G)`: overlay pass then derivation pass. The
derivation loop writes only `next`/`waiting` and reads only `complete`, so
recasting the two in-place loops as two list maps is order-faithful. When
the graph is empty the Python local `complete` is unbound, but the
derivation loop is then also empty, so the `false` default below is never
read. -/
def set_node_info (node_info : List (String × NodeInfo)) (g : DiGraph) : DiGraph :=
  let overlaid := g.nodes.map (overlayNode node_info)
  let lastComplete := ((overlaid.getLast?).map (fun n => n.complete)).getD false
  { g with nodes := overlaid.map (deriveNode g.edges overlaid lastComplete) }

/-- The core pipeline of `__main__` before any printing: `read_deps`,
`graph_from_deps`, `set_node_info`. -/
def classify_file (lines : List String) : Except PyErr DiGraph :=
  match read_deps lines with
  | .error e => .error e
  | .ok (deps, node_info) =>
    match graph_from_deps deps with
    | .error e => .error e
    | .ok g => .ok (set_node_info node_info g)

/-- Models `G.nodes[name]["next"]` (graphs reaching the renderers have been
through `set_node_info`, so the key exists for every graph node). -/
def nodeNext (nodes : List GNode) (name : String) : Bool :=
  ((getNode nodes name).map (fun n => n.next)).getD false

/-- Models `G.nodes[name]["waiting"]`. -/
def nodeWaiting (nodes : List GNode) (name : String) : Bool :=
  ((getNode nodes name).map (fun n => n.waiting)).getD false

/-- Models `G.nodes[name]["comment"]`. -/
def nodeComment (nodes : List GNode) (name : String) : String :=
  ((getNode nodes name).map (fun n => n.comment)).getD ""

/-- Source `print_dep`: split on `->`, and on an unpacking `ValueError` print
nothing (this renderer, unlike `graph_from_deps`, has a try/except). -/
def print_dep (dep_str : String) : Option String :=
  match py_split_str dep_str "->" with
  | [parent, child] => some ("   \"" ++ py_strip parent ++ "\" -> \"" ++ py_strip child ++ "\"")
  | _ => none

/-- Source `get_node_fill_color`. The Python body reads the global `node` rather
than its `node_str` parameter; in the one call chain that exists
(`__main__` loop → `print_node(node, G)`) the global holds the same name
as the argument, so the function is modelled as reading the named node's
attributes. -/
def get_node_fill_color (g : DiGraph) (name : String) : String :=
  if nodeComplete g.nodes name then "lightgrey"
  else if nodeWaiting g.nodes name then "lightblue"
  else if nodeNext g.nodes name then "green"
  else "white"

/-- Source `print_node`: the styled dot line for one node. -/
def print_node (g : DiGraph) (name : String) : String :=
  "    \"" ++ name ++ "\" [label=\"" ++ name ++ dotNewline ++ dotNewline
    ++ nodeComment g.nodes name ++ "\",style=filled,fillcolor="
    ++ get_node_fill_color g name ++ "]"

/-- The three lines of `print_graph_header` (the bare `print()` is an
empty line). -/
def graph_header : List String := ["digraph G \x7b", "rankdir=\"LR\"", ""]

/-- Source `print_graph_footer`. -/
def graph_footer : String := "\x7d"

/-- The default (no-flag) run of `__main__`, as the list of printed lines:
header, one relation line per dependency expression (via `print_dep`), one
styled line per node, footer. A `PyErr` means the run aborted before
printing anything (both possible errors arise inside `read_deps` /
`graph_from_deps`, which run before the first print). -/
def main_default (lines : List String) : Except PyErr (List String) :=
  match read_deps lines with
  | .error e => .error e
  | .ok (deps, node_info) =>
    match graph_from_deps deps with
    | .error e => .error e
    | .ok g =>
      let g := set_node_info node_info g
      .ok (graph_header ++ deps.filterMap print_dep
            ++ g.nodes.map (fun n => print_node g n.name) ++ [graph_footer])

/-- Models `G.successors(name)`: networkx raises a `NetworkXError` when `name` is
not a node of the graph. -/
def successors (g : DiGraph) (name : String) : Except PyErr (List String) :=
  if g.nodes.any (fun n => n.name == name) then
    .ok ((g.edges.filter (fun e => e.1 == name)).map (fun e => e.2))
  else .error .networkxError

/-- Source `print_koi_todo_list`: the header prints first; only then is
`G.successors("koi")` consulted, so on a graph without a `koi` node the
output is the bare header followed by the `NetworkXError`. Result: the
lines printed, and the error if the call failed. -/
def print_koi_todo_list (g : DiGraph) : List String × Option PyErr :=
  match successors g "koi" with
  | .error e => (["Koi TODO list:"], some e)
  | .ok succs =>
    ("Koi TODO list:" :: (succs.filter (fun s => nodeNext g.nodes s)).map (fun s => " - " ++ s),
      none)

/-- Comparison definition ONLY — this one follows the SPECIFICATION's
wording rather than the source, for the claims that measure the code's
derivation pass against it: `next = (not complete) and
all(predecessor.complete for predecessor in direct_predecessors)`, i.e.
the node's OWN completion flag gates its eligibility. -/
def spec_next (g : DiGraph) (name : String) : Bool :=
  !nodeComplete g.nodes name
    && (predecessors g.edges name).all (fun parent => nodeComplete g.nodes parent)

/-- Models `comment_lines[-1].endswith(quote)` with Python's `False` on an empty
list avoided: `none` maps to `false` (the empty case is handled separately
where it matters). -/
def lastEndsQuote (ls : List String) : Bool :=
  ((ls.getLast?).map (fun s => py_endswith s "\"")).getD false

end DepGraph


namespace DepGraph

/-! ### Structural helper lemmas -/

theorem overlayNode_name (node_info : List (String × NodeInfo)) (n : GNode) :
    (overlayNode node_info n).name = n.name := by
  unfold overlayNode
  cases lookupInfo node_info n.name <;> rfl

theorem overlayNode_complete (node_info : List (String × NodeInfo)) (n : GNode) :
    (overlayNode node_info n).complete
      = ((lookupInfo node_info n.name).map (fun i => i.complete)).getD false := by
  unfold overlayNode
  cases lookupInfo node_info n.name <;> rfl

theorem overlayNode_comment (node_info : List (String × NodeInfo)) (n : GNode) :
    (overlayNode node_info n).comment
      = ((lookupInfo node_info n.name).map (fun i => i.comment)).getD "" := by
  unfold overlayNode
  cases lookupInfo node_info n.name <;> rfl

theorem deriveNode_name (edges : List (String × String)) (overlaid : List GNode)
    (lastComplete : Bool) (n : GNode) : (deriveNode edges overlaid lastComplete n).name = n.name := rfl

theorem deriveNode_complete (edges : List (String × String)) (overlaid : List GNode)
    (lastComplete : Bool) (n : GNode) :
    (deriveNode edges overlaid lastComplete n).complete = n.complete := rfl

theorem deriveNode_comment (edges : List (String × String)) (overlaid : List GNode)
    (lastComplete : Bool) (n : GNode) :
    (deriveNode edges overlaid lastComplete n).comment = n.comment := rfl

theorem deriveNode_next (edges : List (String × String)) (overlaid : List GNode)
    (lastComplete : Bool) (n : GNode) :
    (deriveNode edges overlaid lastComplete n).next
      = (!lastComplete
          && (predecessors edges n.name).all (fun parent => nodeComplete overlaid parent)) := rfl

theorem deriveNode_waiting (edges : List (String × String)) (overlaid : List GNode)
    (lastComplete : Bool) (n : GNode) :
    (deriveNode edges overlaid lastComplete n).waiting
      = ((deriveNode edges overlaid lastComplete n).next && py_startswith n.name "await") := rfl

theorem getNode_map (f : GNode → GNode) (hf : ∀ n, (f n).name = n.name)
    (l : List GNode) (nm : String) :
    getNode (l.map f) nm = (getNode l nm).map f := by
  unfold getNode
  rw [List.find?_map]
  have hp : ((fun n : GNode => n.name == nm) ∘ f) = (fun n : GNode => n.name == nm) := by
    funext n
    simp [Function.comp, hf]
  rw [hp]

/-- A fixed point of the overlay step: a node whose `complete`/`comment`
already agree with its declared metadata is unchanged. -/
theorem overlay_fix (node_info : List (String × NodeInfo)) (x : GNode)
    (hc : x.complete = ((lookupInfo node_info x.name).map (fun i => i.complete)).getD false)
    (hcm : x.comment = ((lookupInfo node_info x.name).map (fun i => i.comment)).getD "") :
    overlayNode node_info x = x := by
  unfold overlayNode
  cases h : lookupInfo node_info x.name with
  | none =>
    rw [h] at hc hcm
    simp only [Option.map_none', Option.getD_none] at hc hcm
    cases x
    simp_all
  | some i =>
    rw [h] at hc hcm
    simp only [Option.map_some', Option.getD_some] at hc hcm
    cases x
    simp_all

/-- A fixed point of the derivation step: a node whose `next`/`waiting`
already hold the values the step computes is unchanged. -/
theorem derive_fix (edges : List (String × String)) (overlaid : List GNode)
    (lastComplete : Bool) (x : GNode)
    (hnext : x.next
      = (!lastComplete && (predecessors edges x.name).all (fun parent => nodeComplete overlaid parent)))
    (hwait : x.waiting = (x.next && py_startswith x.name "await")) :
    deriveNode edges overlaid lastComplete x = x := by
  unfold deriveNode
  cases x
  simp_all

theorem map_self {α : Type} (f : α → α) (l : List α) (h : ∀ x ∈ l, f x = x) :
    l.map f = l := by
  induction l with
  | nil => rfl
  | cons a t ih =>
    simp only [List.map_cons, h a (List.mem_cons_self a t)]
    rw [ih (fun x hx => h x (List.mem_cons_of_mem a hx))]

theorem nodeComplete_map_derive (edges : List (String × String)) (overlaid : List GNode)
    (lastComplete : Bool) (l : List GNode) (nm : String) :
    nodeComplete (l.map (deriveNode edges overlaid lastComplete)) nm = nodeComplete l nm := by
  unfold nodeComplete
  rw [getNode_map _ (deriveNode_name edges overlaid lastComplete)]
  cases getNode l nm <;> rfl

end DepGraph

namespace DepGraph

/-! ### Claim theorems -/

/-- C1: the claim that after classification each node's `next` equals
`(not its own complete) and (all direct predecessors complete)` is FALSE
of the code. The derivation loop of `set_node_info` reads the Python
local `complete` left over from the overlay loop — the overlaid completion
flag of the LAST node in iteration order — instead of the current node's
flag. Witnessed here at the two-node graph built from
`- x -> y` / `- [complete] x`: the code marks `x` (which is complete and
should therefore never be `next`) with `next = true`, while the
specification's formula `spec_next` yields `false` for it; the result also
depends on node iteration order through that stale value. -/
theorem c1_next_uses_stale_complete_not_own :
    classify_file ["- x -> y", "- [complete] x"]
      = .ok ⟨[⟨"x", true, "", true, false⟩, ⟨"y", false, "", true, false⟩], [("x", "y")]⟩
    ∧ spec_next ⟨[⟨"x", true, "", true, false⟩, ⟨"y", false, "", true, false⟩], [("x", "y")]⟩ "x"
        = false := by
  decide

/-- C2: the spec scenario for input `- a -> b` / `- [complete] a` claims
`a: complete=true, next=false` and `b: complete=false, next=true,
waiting=false`. The code does produce exactly the two nodes and the
claimed `b`, but because of the stale-`complete` bug in `set_node_info`
(see `c1_next_uses_stale_complete_not_own`) it yields `a.next = true`
where the claim (and the code's own comment at line 189) requires
`false`. This theorem evaluates the full pipeline at the failing input. -/
theorem c2_scenario_pipeline_actual_result :
    classify_file ["- a -> b", "- [complete] a"]
      = .ok ⟨[⟨"a", true, "", true, false⟩, ⟨"b", false, "", true, false⟩], [("a", "b")]⟩ := by
  decide

/-- C10: an edge line with an empty parent part, `- -> b`, is not treated
as malformed: `read_deps` keeps the expression `-> b`, the builder creates
a node named `""` and the edge `("", "b")`, classification assigns the
empty-named node derived attributes (it has no predecessors, so it comes
out `next`), and the default rendering prints both its relation line and
its styled node line. -/
theorem c10_empty_name_node_participates :
    read_deps ["- -> b"] = .ok (["-> b"], [])
    ∧ graph_from_deps ["-> b"]
        = .ok ⟨[⟨"", false, "", false, false⟩, ⟨"b", false, "", false, false⟩], [("", "b")]⟩
    ∧ classify_file ["- -> b"]
        = .ok ⟨[⟨"", false, "", true, false⟩, ⟨"b", false, "", false, false⟩], [("", "b")]⟩
    ∧ main_default ["- -> b"]
        = .ok ["digraph G \x7b", "rankdir=\"LR\"", "",
               "   \"\" -> \"b\"",
               "    \"\" [label=\"\\l\\l\",style=filled,fillcolor=green]",
               "    \"b\" [label=\"b\\l\\l\",style=filled,fillcolor=white]",
               "\x7d"] := by
  decide

/-- C3 counterexample: the claim that EVERY malformed edge expression is
skipped silently and the run never aborts is false at two concrete
inputs. (1) `- a -> b -> c` has two `->`s: the expression reaches
`graph_from_deps`, whose unguarded tuple unpacking raises `ValueError`
and aborts the run (only the renderer `print_dep` has the try/except).
(2) A no-arrow line such as `- a b c` is not an edge expression at all
but a node declaration; repeating it trips the duplicate-node assert and
aborts the run, unrelated valid edge lines notwithstanding. -/
theorem c3_malformed_can_abort_run :
    main_default ["- a -> b -> c"] = .error .valueError
    ∧ main_default ["- a b c", "- a b c", "- x -> y"] = .error (.duplicateNode "a b c") := by
  decide


/-- C5: after classification every node satisfies
`waiting = next && name.startswith("await")`, and in particular `waiting`
implies `next`: the derivation loop assigns `is_waiting = is_next and
node.startswith("await")` and `is_next` to the two attributes of the same
node in the same iteration. -/
theorem c5_waiting_iff_next_and_await_name (node_info : List (String × NodeInfo))
    (g : DiGraph) (n : GNode) (h : n ∈ (set_node_info node_info g).nodes) :
    n.waiting = (n.next && py_startswith n.name "await")
    ∧ (n.waiting = true → n.next = true) := by
  simp only [set_node_info, List.mem_map] at h
  obtain ⟨m, _, rfl⟩ := h
  refine ⟨rfl, ?_⟩
  intro hw
  rw [deriveNode_waiting] at hw
  exact (Bool.and_eq_true _ _ |>.mp hw).1

/-- Witness for `c5_waiting_iff_next_and_await_name` at the classified
one-node graph over `awaitx` (an `await`-prefixed name with no
predecessors). -/
theorem c5_witness :
    ((⟨"awaitx", false, "", true, true⟩ : GNode)
        ∈ (set_node_info [] ⟨[⟨"awaitx", false, "", false, false⟩], []⟩).nodes)
    ∧ ((⟨"awaitx", false, "", true, true⟩ : GNode).waiting
          = ((⟨"awaitx", false, "", true, true⟩ : GNode).next && py_startswith "awaitx" "await")
        ∧ ((⟨"awaitx", false, "", true, true⟩ : GNode).waiting = true
            → (⟨"awaitx", false, "", true, true⟩ : GNode).next = true)) :=
  ⟨by decide, c5_waiting_iff_next_and_await_name [] ⟨[⟨"awaitx", false, "", false, false⟩], []⟩ _ (by decide)⟩

/-- C7: a node carrying a self-loop edge that is not declared complete is
never `next` after classification: it is its own direct predecessor, its
overlaid completion flag is `false`, so `all_parents_complete` is `false`
and `is_next = (not complete) and all_parents_complete` is `false` —
whatever value the stale `complete` variable happens to hold. -/
theorem c7_self_loop_never_next (name : String) (node_info : List (String × NodeInfo))
    (g : DiGraph) (n : GNode)
    (hedge : (name, name) ∈ g.edges)
    (hincomplete : ((lookupInfo node_info name).map (fun i => i.complete)).getD false = false)
    (hn : n ∈ (set_node_info node_info g).nodes)
    (hname : n.name = name) :
    n.next = false := by
  simp only [set_node_info, List.mem_map] at hn
  obtain ⟨m, hm, rfl⟩ := hn
  rw [deriveNode_name] at hname
  rw [deriveNode_next, hname]
  have hpred : name ∈ predecessors g.edges name := by
    unfold predecessors
    exact List.mem_map_of_mem _ (List.mem_filter.mpr ⟨hedge, by simp⟩)
  have hnc : nodeComplete (g.nodes.map (overlayNode node_info)) name = false := by
    unfold nodeComplete
    rw [getNode_map _ (overlayNode_name node_info)]
    cases hg : getNode g.nodes name with
    | none => rfl
    | some y =>
      have hyname : y.name = name := by
        have := List.find?_some hg
        exact eq_of_beq this
      simp only [Option.map_some', Option.getD_some, overlayNode_complete, hyname]
      exact hincomplete
  have hall : (predecessors g.edges name).all
      (fun parent => nodeComplete (g.nodes.map (overlayNode node_info)) parent) = false := by
    rw [List.all_eq_false]
    exact ⟨name, hpred, by rw [hnc]; simp⟩
  rw [hall, Bool.and_false]

/-- Witness for `c7_self_loop_never_next`: the one-node graph with the
self-loop `a -> a` and no metadata. -/
theorem c7_witness :
    (("a", "a") ∈ (⟨[⟨"a", false, "", false, false⟩], [("a", "a")]⟩ : DiGraph).edges)
    ∧ ((⟨"a", false, "", false, false⟩ : GNode)
        ∈ (set_node_info [] ⟨[⟨"a", false, "", false, false⟩], [("a", "a")]⟩).nodes)
    ∧ (⟨"a", false, "", false, false⟩ : GNode).next = false :=
  ⟨by decide, by decide,
    c7_self_loop_never_next "a" [] ⟨[⟨"a", false, "", false, false⟩], [("a", "a")]⟩
      ⟨"a", false, "", false, false⟩ (by decide) (by decide) (by decide) (by decide)⟩

/-- C9: on a classified graph with no node named `koi`, the restricted
subtree renderer prints the header line `Koi TODO list:` and then fails
with networkx's missing-node error instead of completing with an empty
list: the header `print` executes before `G.successors("koi")` is
consulted. -/
theorem c9_koi_missing_header_then_error (g : DiGraph)
    (h : g.nodes.all (fun n => !(n.name == "koi")) = true) :
    print_koi_todo_list g = (["Koi TODO list:"], some .networkxError) := by
  have hany : (g.nodes.any (fun n => n.name == "koi")) = false := by
    rw [List.any_eq_false]
    intro x hx
    have := List.all_eq_true.mp h x hx
    simp at this
    simp [this]
  unfold print_koi_todo_list successors
  rw [hany]
  rfl

/-- Witness for `c9_koi_missing_header_then_error` at a one-node graph. -/
theorem c9_witness :
    ((⟨[⟨"a", false, "", false, false⟩], []⟩ : DiGraph).nodes.all
        (fun n => !(n.name == "koi")) = true)
    ∧ print_koi_todo_list ⟨[⟨"a", false, "", false, false⟩], []⟩
        = (["Koi TODO list:"], some .networkxError) :=
  ⟨by decide, c9_koi_missing_header_then_error _ (by decide)⟩


/-- C8: classification is idempotent. Re-running `set_node_info` overlays
the same declared `complete`/`comment` values (so the overlay pass is the
identity on an already-classified graph), the stale last-node `complete`
value is therefore also unchanged, and the derivation pass recomputes
`next`/`waiting` from the same inputs — including, faithfully to the bug,
the same stale value — so every attribute is reproduced exactly. No
hypotheses: this holds for every metadata list and every graph. -/
theorem c8_set_node_info_idempotent (node_info : List (String × NodeInfo)) (g : DiGraph) :
    set_node_info node_info (set_node_info node_info g) = set_node_info node_info g := by
  unfold set_node_info
  simp only []
  set ov := g.nodes.map (overlayNode node_info) with hov
  set lc := ((ov.getLast?).map (fun n => n.complete)).getD false with hlc
  set n2 := ov.map (deriveNode g.edges ov lc) with hn2
  have hfix : ∀ x ∈ n2, overlayNode node_info x = x := by
    intro x hx
    rw [hn2] at hx
    obtain ⟨y, hy, rfl⟩ := List.mem_map.mp hx
    rw [hov] at hy
    obtain ⟨n, _, rfl⟩ := List.mem_map.mp hy
    apply overlay_fix
    · rw [deriveNode_complete, deriveNode_name, overlayNode_name, overlayNode_complete]
    · rw [deriveNode_comment, deriveNode_name, overlayNode_name, overlayNode_comment]
  have hov2 : n2.map (overlayNode node_info) = n2 := map_self _ _ hfix
  have hlc2 : ((n2.getLast?).map (fun n => n.complete)).getD false = lc := by
    rw [hn2, List.getLast?_map, hlc]
    cases ov.getLast? with
    | none => rfl
    | some y => rfl
  rw [hov2, hlc2]
  have hderive2 : ∀ x ∈ n2, deriveNode g.edges n2 lc x = x := by
    intro x hx
    rw [hn2] at hx
    obtain ⟨y, hy, rfl⟩ := List.mem_map.mp hx
    apply derive_fix
    · rw [deriveNode_next, deriveNode_name, hn2]
      have : ∀ parent,
          nodeComplete ((g.nodes.map (overlayNode node_info)).map
            (deriveNode g.edges ov lc)) parent
          = nodeComplete (g.nodes.map (overlayNode node_info)) parent := by
        intro parent
        rw [← hov, nodeComplete_map_derive]
      simp only [← hov, this]
    · rw [deriveNode_waiting, deriveNode_name]
  have : n2.map (deriveNode g.edges n2 lc) = n2 := map_self _ _ hderive2
  rw [this]


/-- One evaluation step of `extract_go` on a non-empty line list, stated
as a definitional equation for controlled rewriting. -/
theorem extract_go_cons (fuel : Nat) (line : String) (rest : List String)
    (node_info : List (String × NodeInfo)) :
    extract_go (fuel + 1) (line :: rest) node_info
      = if is_node_line line then
          (let node_name := get_node_name line
           if (node_info.lookup node_name).isSome then
             .error (.duplicateNode node_name)
           else
             let complete := is_complete_line line
             match rest with
             | [] => extract_go fuel [] (node_info ++ [(node_name, ⟨node_name, complete, ""⟩)])
             | next_line :: _ =>
               if is_comment_start_line next_line then
                 match read_comment_go rest [] with
                 | .error e => .error e
                 | .ok (comment, rest2) =>
                   extract_go fuel rest2
                     (node_info ++ [(node_name, ⟨node_name, complete, comment⟩)])
               else
                 extract_go fuel rest (node_info ++ [(node_name, ⟨node_name, complete, ""⟩)]))
        else extract_go fuel rest node_info := rfl

/-- Non-node lines are skipped by the `extract_node_info` loop, one unit
of fuel each, leaving the accumulated metadata untouched. -/
theorem extract_go_skip (rest : List String) (node_info : List (String × NodeInfo))
    (pre : List String) :
    ∀ fuel, (pre ++ rest).length < fuel →
    (∀ l ∈ pre, is_node_line l = false) →
    extract_go fuel (pre ++ rest) node_info = extract_go (fuel - pre.length) rest node_info := by
  induction pre with
  | nil =>
    intro fuel _ _
    simp
  | cons l pre ih =>
    intro fuel hf hpre
    cases fuel with
    | zero => exact absurd hf (Nat.not_lt_zero _)
    | succ fuel =>
      have hl : is_node_line l = false := hpre l (List.mem_cons_self _ _)
      have hlen : (pre ++ rest).length < fuel := by
        simp only [List.cons_append, List.length_cons] at hf
        omega
      have step : extract_go (fuel + 1) ((l :: pre) ++ rest) node_info
          = extract_go fuel (pre ++ rest) node_info := by
        rw [List.cons_append, extract_go_cons, hl]
        simp
      rw [step, List.length_cons, Nat.succ_sub_succ]
      exact ih fuel hlen (fun x hx => hpre x (List.mem_cons_of_mem _ hx))

/-- Once the metadata already holds a node named `a`, reaching the
declaration line `- a` (past any intervening non-node lines) trips the
duplicate-node assert. -/
theorem extract_go_dup_tail (mid2 post2 : List String) (node_info : List (String × NodeInfo))
    (hmid2 : ∀ l ∈ mid2, is_node_line l = false)
    (hinfo : ((node_info.lookup "a").isSome) = true) :
    extract_go ((mid2 ++ "- a" :: post2).length + 1) (mid2 ++ "- a" :: post2) node_info
      = .error (.duplicateNode "a") := by
  rw [extract_go_skip ("- a" :: post2) node_info mid2
      ((mid2 ++ "- a" :: post2).length + 1) (by omega) hmid2]
  have harith : (mid2 ++ "- a" :: post2).length + 1 - mid2.length = post2.length + 1 + 1 := by
    simp only [List.length_append, List.length_cons]
    omega
  rw [harith, extract_go_cons]
  have h1 : is_node_line "- a" = true := by decide
  have h2 : get_node_name "- a" = "a" := by decide
  simp only [h1, h2, hinfo, eq_self_iff_true, if_true]

/-- C4: an input declaring the same node name twice — here `- [complete] a`
and then `- a`, the spec scenario, with any non-declaration lines before
and between them (the line between must also not open a comment block, or
the second declaration would be swallowed as comment text) and anything at
all after — makes `read_deps` raise the duplicate-node `AssertionError`,
so the run aborts; `main_default` propagates the same error, meaning
nothing is printed (the parse runs before the first `print`). -/
theorem c4_duplicate_declaration_aborts (pre mid post : List String)
    (hpre : ∀ l ∈ pre, is_node_line (py_lower l) = false)
    (hmid : ∀ l ∈ mid, is_node_line (py_lower l) = false)
    (hmidc : ∀ l ∈ mid, is_comment_start_line (py_lower l) = false) :
    read_deps (pre ++ "- [complete] a" :: (mid ++ "- a" :: post))
      = .error (.duplicateNode "a")
    ∧ main_default (pre ++ "- [complete] a" :: (mid ++ "- a" :: post))
      = .error (.duplicateNode "a") := by
  have hlow1 : py_lower "- [complete] a" = "- [complete] a" := by decide
  have hlow2 : py_lower "- a" = "- a" := by decide
  have hmap : (pre ++ "- [complete] a" :: (mid ++ "- a" :: post)).map py_lower
      = pre.map py_lower
          ++ "- [complete] a" :: (mid.map py_lower ++ "- a" :: post.map py_lower) := by
    simp [List.map_append, hlow1, hlow2]
  have hpre2 : ∀ l ∈ pre.map py_lower, is_node_line l = false := by
    intro l hl
    obtain ⟨x, hx, rfl⟩ := List.mem_map.mp hl
    exact hpre x hx
  have hext : extract_node_info
      ((pre ++ "- [complete] a" :: (mid ++ "- a" :: post)).map py_lower)
      = .error (.duplicateNode "a") := by
    rw [hmap]
    unfold extract_node_info
    rw [extract_go_skip
      ("- [complete] a" :: (mid.map py_lower ++ "- a" :: post.map py_lower)) []
      (pre.map py_lower)
      ((pre.map py_lower
        ++ "- [complete] a" :: (mid.map py_lower ++ "- a" :: post.map py_lower)).length + 1)
      (by omega) hpre2]
    have harith :
        (pre.map py_lower
          ++ "- [complete] a" :: (mid.map py_lower ++ "- a" :: post.map py_lower)).length + 1
          - (pre.map py_lower).length
        = (mid.map py_lower ++ "- a" :: post.map py_lower).length + 1 + 1 := by
      simp only [List.length_append, List.length_cons]
      omega
    rw [harith, extract_go_cons]
    have h1 : is_node_line "- [complete] a" = true := by decide
    have h2 : get_node_name "- [complete] a" = "a" := by decide
    have h3 : is_complete_line "- [complete] a" = true := by decide
    have h4 : is_comment_start_line "- a" = false := by decide
    cases hm : mid with
    | nil =>
      simp only [List.map_nil, List.nil_append, h1, h2, h3, h4, List.lookup,
        Option.isSome_none, Bool.false_eq_true, if_false, eq_self_iff_true, if_true,
        List.nil_append]
      exact extract_go_dup_tail [] (post.map py_lower) [("a", ⟨"a", true, ""⟩)]
        (by intro l hl; cases hl) (by decide)
    | cons m mtl =>
      have h5 : is_comment_start_line (py_lower m) = false :=
        hmidc m (by rw [hm]; exact List.mem_cons_self _ _)
      simp only [List.map_cons, List.cons_append, h1, h2, h3, h5, List.lookup,
        Option.isSome_none, Bool.false_eq_true, if_false, eq_self_iff_true, if_true,
        List.nil_append]
      exact extract_go_dup_tail (py_lower m :: mtl.map py_lower) (post.map py_lower)
        [("a", ⟨"a", true, ""⟩)]
        (by
          intro l hl
          have hl2 : l ∈ (m :: mtl).map py_lower := hl
          obtain ⟨x, hx, rfl⟩ := List.mem_map.mp hl2
          exact hmid x (by rw [hm]; exact hx))
        (by decide)
  constructor
  · simp only [read_deps, hext]
  · simp only [main_default, read_deps, hext]

/-- Witness for `c4_duplicate_declaration_aborts`: the spec scenario
itself, `- [complete] a` directly followed by `- a`. -/
theorem c4_witness :
    read_deps ["- [complete] a", "- a"] = .error (.duplicateNode "a")
    ∧ main_default ["- [complete] a", "- a"] = .error (.duplicateNode "a") := by
  have h := c4_duplicate_declaration_aborts [] [] []
    (by intro l hl; cases hl) (by intro l hl; cases hl) (by intro l hl; cases hl)
  simpa using h


/-- One evaluation step of `read_comment_go`, stated as a definitional
equation for controlled rewriting. -/
theorem read_comment_go_cons (l : String) (rest acc : List String) :
    read_comment_go (l :: rest) acc
      = (let comment_lines := acc ++ wrap (py_strip l) 30
         match comment_lines.getLast? with
         | none => .error .indexError
         | some last =>
           if py_endswith last "\"" then .ok (mk_comment comment_lines, l :: rest)
           else read_comment_go rest comment_lines) := rfl

/-- C6: an unterminated comment block makes `read_comment` read past the
end of the input. If no remaining line contributes a wrapped segment
ending in a quote character (the loop's termination test is
`comment_lines[-1].endswith(quote)`) and the segments accumulated so far
do not end in one either, the loop walks off the end of `lines` and dies
on the unguarded out-of-range index — modelled as `.error .indexError` —
rather than stopping at a guard. The second conjunct shows the failure
propagating out of `extract_node_info` for a declaration followed by an
unterminated comment opener. -/
theorem c6_unterminated_comment_reads_past_end :
    (∀ (cur acc : List String),
      (∀ l ∈ cur, lastEndsQuote (wrap (py_strip l) 30) = false) →
      lastEndsQuote acc = false →
      read_comment_go cur acc = .error .indexError)
    ∧ extract_node_info ["- a", "\"unterminated comment"] = .error .indexError := by
  constructor
  · intro cur
    induction cur with
    | nil =>
      intro acc _ _
      rfl
    | cons l rest ih =>
      intro acc hcur hacc
      have hl : lastEndsQuote (wrap (py_strip l) 30) = false := hcur l (List.mem_cons_self _ _)
      have hacc2 : lastEndsQuote (acc ++ wrap (py_strip l) 30) = false := by
        unfold lastEndsQuote at hacc hl ⊢
        rw [List.getLast?_append]
        cases hw : (wrap (py_strip l) 30).getLast? with
        | none => simpa using hacc
        | some c =>
          rw [hw] at hl
          simpa using hl
      rw [read_comment_go_cons]
      cases hq : (acc ++ wrap (py_strip l) 30).getLast? with
      | none => simp [hq]
      | some last =>
        have hlast : py_endswith last "\"" = false := by
          unfold lastEndsQuote at hacc2
          rw [hq] at hacc2
          simpa using hacc2
        simp only [hq, hlast, Bool.false_eq_true, if_false]
        exact ih (acc ++ wrap (py_strip l) 30)
          (fun x hx => hcur x (List.mem_cons_of_mem _ hx)) hacc2
  · decide

/-- Witness for `c6_unterminated_comment_reads_past_end` (first conjunct)
at the single comment-opening line `"oops` with no closing quote. -/
theorem c6_witness : read_comment_go ["\"oops"] [] = .error .indexError :=
  c6_unterminated_comment_reads_past_end.1 ["\"oops"] [] (by decide) (by decide)

/-- C3 amended: an edge expression lacking `->` never reaches the graph
builder — every dependency expression `read_deps` returns contains `->`
(first conjunct), and the spec scenario with the no-arrow line `- a b c`
among valid lines completes, classifying the unrelated nodes (second
conjunct; `a` is `lightgrey` because it is complete, `b` `green` because
it is `next` — the `- a b c` line leaves no trace in the graph). An
expression with more than one `->`, however, is not skipped: the builder
aborts with a `ValueError` (third conjunct; the skipping try/except
exists only in the renderer `print_dep`). -/
theorem c3_no_arrow_skipped_multi_arrow_aborts :
    (∀ (lines deps : List String) (node_info : List (String × NodeInfo)),
        read_deps lines = .ok (deps, node_info) → ∀ d ∈ deps, py_in "->" d = true)
    ∧ main_default ["- a b c", "- a -> b", "- [complete] a"]
        = .ok ["digraph G \x7b", "rankdir=\"LR\"", "",
               "   \"a\" -> \"b\"",
               "    \"a\" [label=\"a\\l\\l\",style=filled,fillcolor=lightgrey]",
               "    \"b\" [label=\"b\\l\\l\",style=filled,fillcolor=green]",
               "\x7d"]
    ∧ graph_from_deps ["a -> b -> c"] = .error .valueError := by
  refine ⟨?_, by decide, by decide⟩
  intro lines deps node_info h d hd
  cases hex : extract_node_info (lines.map py_lower) with
  | error e =>
    simp only [read_deps, hex] at h
    exact absurd h (by simp)
  | ok ni =>
    simp only [read_deps, hex, Except.ok.injEq, Prod.mk.injEq] at h
    obtain ⟨h1, _⟩ := h
    subst h1
    exact (List.mem_filter.mp hd).2

/-- Witness for the first conjunct of
`c3_no_arrow_skipped_multi_arrow_aborts`. -/
theorem c3_witness : py_in "->" "x -> y" = true :=
  c3_no_arrow_skipped_multi_arrow_aborts.1 ["- x -> y"] ["x -> y"] [] (by decide)
    "x -> y" (by decide)

end DepGraph
